import Mathlib

/-!
# POSM Catalogue — verification of the data/session/draft/cache core

Shallow embedding of the service layer of the `posm-catalogue` web client:

* `validateModel`        (src/services/modelService.ts, structural validator)
* `CacheService`         (src/utils/cache.ts, in-memory TTL cache)
* `rateLimit` / `login` / `getSession` (src/utils/security.ts, auth service)
* draft persistence      (saveDraft / loadDraft / clearDraft / getAllDraftIds)

Modelling conventions:

* JavaScript dynamic values are modelled by `JValue`; a possibly-`undefined`
  value is `Option JValue` with `none` = `undefined`.  JS numbers are
  modelled as `Int` (all numeric tests in the embedded code are order
  comparisons against integer constants, so no floating-point behaviour is
  relevant; `NaN` arising from `ToNumber` coercion is modelled by `none`).
* A thrown JS exception is `Except.error` with the message text.
* `localStorage` is modelled as an association list `Store V` of string keys;
  `setItem` is last-write-wins, `removeItem` removes the key.  Enumeration
  order of keys is modelled as list order.
* `Date.now()` and the current time are explicit `Int` millisecond
  parameters; random token generation is an explicit string parameter.
-/

set_option autoImplicit false

namespace Posm

/-- A JavaScript runtime value (the `unknown` input of `validateModel`,
JSON-parsed storage contents, …).  `undefined` is represented one level up
as `none : Option JValue`. -/
inductive JValue where
  | null
  | bool (b : Bool)
  | num (n : Int)
  | str (s : String)
  | arr (elems : List JValue)
  | obj (fields : List (String × JValue))

/-- `typeof v` for a possibly-undefined value. -/
def jsTypeof : Option JValue → String
  | none => "undefined"
  | some .null => "object"
  | some (.bool _) => "boolean"
  | some (.num _) => "number"
  | some (.str _) => "string"
  | some (.arr _) => "object"
  | some (.obj _) => "object"

/-- JS truthiness of a possibly-undefined value. -/
def truthy : Option JValue → Bool
  | none => false
  | some .null => false
  | some (.bool b) => b
  | some (.num n) => n != 0
  | some (.str s) => s != ""
  | some (.arr _) => true
  | some (.obj _) => true

/-- `v = .null` as a Bool. -/
def isNull : JValue → Bool
  | .null => true
  | _ => false

/-- Property access `v.k` where `v` is known not to be `null`/`undefined`
(primitives yield `undefined`; only plain objects carry own properties
relevant here). -/
def getPropSafe : Option JValue → String → Option JValue
  | some (.obj fields), k => (fields.find? (fun kv => kv.1 == k)).map (fun kv => kv.2)
  | _, _ => none

/-- Property access `v.k` including the throwing cases: accessing a property
of `undefined` or `null` raises a `TypeError`. -/
def getProp : Option JValue → String → Except String (Option JValue)
  | none, _ => .error "TypeError: Cannot read properties of undefined"
  | some .null, _ => .error "TypeError: Cannot read properties of null"
  | v, k => .ok (getPropSafe v k)

/-- JS `ToNumber` coercion used by `<`/`>` against numeric literals, with
`none` playing the role of `NaN`.  Strings are modelled by decimal integer
parsing; object/array coercion is modelled as `NaN` (the embedded checks
only ever produce an error from a *successful* comparison, and no claim
exercises object-to-number coercion). -/
def jsToNumber : Option JValue → Option Int
  | none => none
  | some .null => some 0
  | some (.bool b) => some (if b then 1 else 0)
  | some (.num n) => some n
  | some (.str s) => if s = "" then some 0 else s.toInt?
  | some (.arr _) => none
  | some (.obj _) => none

/-- `a < b` with JS coercion on the left operand (`NaN` compares false). -/
def jsLt (a : Option JValue) (b : Int) : Bool :=
  match jsToNumber a with
  | none => false
  | some n => n < b

/-- `a > b` with JS coercion on the left operand (`NaN` compares false). -/
def jsGt (a : Option JValue) (b : Int) : Bool :=
  match jsToNumber a with
  | none => false
  | some n => n > b

/-- `a <= b` with JS coercion on the left operand (`NaN` compares false). -/
def jsLe (a : Option JValue) (b : Int) : Bool :=
  match jsToNumber a with
  | none => false
  | some n => n ≤ b

/-- One entry of the `errors` array of `validateModel`:
`{ field, message, value? }`.  The outer `Option` on `value` records whether
the `value` key was put on the error object at all (`none` = omitted). -/
structure VError where
  field : String
  message : String
  value : Option (Option JValue)

/-- The `ValidationResult<ProductModel>` shape `{ valid, data?, errors? }`. -/
structure ValidationResult where
  valid : Bool
  data : Option JValue
  errors : Option (List VError)

/-- The error pushed for `posmMarkers[i].position` when position is missing
or has non-numeric coordinates. -/
def invalidPosErr (i : Nat) : VError :=
  ⟨"posmMarkers[" ++ toString i ++ "].position", "Invalid position coordinates", none⟩

/-- The loop body of `validateModel` over `m.posmMarkers` (the `forEach` at
modelService.ts:189-207), with the index threaded explicitly.  Mirrors the
source statement by statement:

* the guarded check pushes "Invalid position coordinates" when
  `!marker.position` or a coordinate is not a number (the `typeof` accesses
  are short-circuited behind `!marker.position`, so they cannot throw);
* the two range checks then dereference `marker.position.x` and
  `marker.position.y` *unconditionally*, which throws a `TypeError` when
  `position` is `undefined` or `null`. -/
def validateMarkers : List JValue → Nat → Except String (List VError)
  | [], _ => .ok []
  | marker :: rest, i => do
    let pos ← getProp (some marker) "position"
    let e1 :=
      if !(truthy pos) || jsTypeof (getPropSafe pos "x") != "number"
          || jsTypeof (getPropSafe pos "y") != "number" then
        [invalidPosErr i]
      else []
    let xv ← getProp pos "x"
    let ex :=
      if jsLt xv 0 || jsGt xv 100 then
        [⟨"posmMarkers[" ++ toString i ++ "].position.x",
          "X coordinate must be between 0 and 100", some xv⟩]
      else []
    let yv ← getProp pos "y"
    let ey :=
      if jsLt yv 0 || jsGt yv 100 then
        [⟨"posmMarkers[" ++ toString i ++ "].position.y",
          "Y coordinate must be between 0 and 100", some yv⟩]
      else []
    let es ← validateMarkers rest (i + 1)
    return e1 ++ ex ++ ey ++ es

/-- `validateModel` (modelService.ts:154-215).  The `Except` layer records a
JS exception escaping the function (it has no try/catch). -/
def validateModel (model : JValue) : Except String ValidationResult := do
  if jsTypeof (some model) != "object" || isNull model then
    return ⟨false, none, some [⟨"model", "Model must be an object", none⟩]⟩
  else
    let mid := getPropSafe (some model) "id"
    let e1 :=
      if !(truthy mid) || jsTypeof mid != "string" then
        [⟨"id", "ID is required and must be a string", some mid⟩]
      else []
    let mname := getPropSafe (some model) "name"
    let e2 :=
      if !(truthy mname) || jsTypeof mname != "string" then
        [⟨"name", "Name is required and must be a string", some mname⟩]
      else []
    let img := getPropSafe (some model) "image"
    let e3 :=
      if !(truthy img) || jsTypeof img != "object" then
        [⟨"image", "Image is required", none⟩]
      else
        (if !(truthy (getPropSafe img "url")) then
          [⟨"image.url", "Image URL is required", none⟩]
        else []) ++
        (if jsTypeof (getPropSafe img "width") != "number"
            || jsLe (getPropSafe img "width") 0 then
          [⟨"image.width", "Image width must be a positive number", none⟩]
        else []) ++
        (if jsTypeof (getPropSafe img "height") != "number"
            || jsLe (getPropSafe img "height") 0 then
          [⟨"image.height", "Image height must be a positive number", none⟩]
        else [])
    match getPropSafe (some model) "posmMarkers" with
    | some (.arr ms) => do
      let e4 ← validateMarkers ms 0
      let errors := e1 ++ e2 ++ e3 ++ e4
      if errors.isEmpty then
        return ⟨true, some model, none⟩
      else
        return ⟨false, none, some errors⟩
    | _ =>
      let errors := e1 ++ e2 ++ e3 ++ [⟨"posmMarkers", "POSM markers must be an array", none⟩]
      if errors.isEmpty then
        return ⟨true, some model, none⟩
      else
        return ⟨false, none, some errors⟩

/-! ## Key-value storage model

Both the in-memory `Map` behind `CacheService` and the browser
`localStorage` behind the auth / draft / rate-limit code are string-keyed
stores with last-write-wins `set` and unique keys.  They are modelled as
association lists; `setItem` erases any previous binding for the key, so a
store built from these operations never holds duplicate keys. -/

/-- A string-keyed store (a `Map` or the `localStorage` namespace). -/
abbrev Store (V : Type) := List (String × V)

/-- `store.get(k)` / `localStorage.getItem(k)`: the binding for the key. -/
def lookupKey {V : Type} : Store V → String → Option V
  | [], _ => none
  | kv :: tl, k => if kv.1 = k then some kv.2 else lookupKey tl k

/-- `store.delete(k)` / `localStorage.removeItem(k)`: drop the binding for
the key (the first one; with unique keys this is the only one). -/
def eraseKey {V : Type} : Store V → String → Store V
  | [], _ => []
  | kv :: tl, k => if kv.1 = k then tl else kv :: eraseKey tl k

/-- `store.set(k, v)` / `localStorage.setItem(k, v)`: last write wins. -/
def setItem {V : Type} (st : Store V) (k : String) (v : V) : Store V :=
  (k, v) :: eraseKey st k

/-- The `Map` / `localStorage` representation invariant: no duplicate keys.
Every store reachable through the operations above satisfies it. -/
def UniqueKeys {V : Type} (st : Store V) : Prop := (st.map Prod.fst).Nodup

/-! ## CacheService (src/utils/cache.ts) -/

/-- `CacheEntry<T>`: `{ data, timestamp, ttl? }`, times in milliseconds. -/
structure CacheEntry (V : Type) where
  data : V
  timestamp : Int
  ttl : Option Int

namespace CacheService

/-- The expiry test of `get` (cache.ts:23):
`entry.ttl && Date.now() - entry.timestamp > entry.ttl`.
An absent `ttl` is falsy, and so is `ttl === 0`. -/
def expiredAt {V : Type} (entry : CacheEntry V) (now : Int) : Bool :=
  match entry.ttl with
  | none => false
  | some t => t != 0 && decide (now - entry.timestamp > t)

/-- `get(key)` (cache.ts:15-29): returns the updated map and the result
(`none` models the `null` miss signal; an expired entry is deleted). -/
def get {V : Type} (cache : Store (CacheEntry V)) (key : String) (now : Int) :
    Store (CacheEntry V) × Option V :=
  match lookupKey cache key with
  | none => (cache, none)
  | some entry =>
    if expiredAt entry now then (eraseKey cache key, none)
    else (cache, some entry.data)

/-- `set(key, value, ttl?)` (cache.ts:37-43). -/
def set {V : Type} (cache : Store (CacheEntry V)) (key : String) (value : V)
    (ttl : Option Int) (now : Int) : Store (CacheEntry V) :=
  setItem cache key ⟨value, now, ttl⟩

/-- `remove(key)` (cache.ts:49-51). -/
def remove {V : Type} (cache : Store (CacheEntry V)) (key : String) :
    Store (CacheEntry V) :=
  eraseKey cache key

/-- `size()` (cache.ts:64-66): `this.cache.size`. -/
def size {V : Type} (cache : Store (CacheEntry V)) : Nat :=
  cache.length

/-- `has(key)` (cache.ts:73-75): `this.get(key) !== null`, including the
lazy-eviction side effect of the embedded `get`. -/
def has {V : Type} (cache : Store (CacheEntry V)) (key : String) (now : Int) :
    Store (CacheEntry V) × Bool :=
  let r := get cache key now
  (r.1, r.2.isSome)

/-- Number of live (unexpired) entries at `now`.  Not a source operation:
used to state that `size()` is an upper bound on live entries. -/
def liveCount {V : Type} (cache : Store (CacheEntry V)) (now : Int) : Nat :=
  (cache.filter (fun kv => !expiredAt kv.2 now)).length

end CacheService

/-! ## Rate limiter (src/utils/security.ts:231-284) -/

/-- The parsed contents of the `rate_limit_{key}` storage slot.  `corrupt`
models stored text that `JSON.parse` rejects. -/
inductive RLSlot where
  | record (attempts : Int) (resetTime : Int)
  | corrupt

/-- `rateLimit(key, maxAttempts, windowMs)` (security.ts:231-276), acting on
the slot stored under `rate_limit_{key}`.  `storageOk = false` models a
browser whose `localStorage` calls throw (unavailable / quota exceeded);
the function's try/catch then returns `true` without touching storage.
Returns (allowed?, new slot contents). -/
def rateLimit (storageOk : Bool) (slot : Option RLSlot)
    (maxAttempts windowMs now : Int) : Bool × Option RLSlot :=
  if !storageOk then (true, slot)
  else
    match slot with
    | none => (true, some (.record 1 (now + windowMs)))
    | some .corrupt => (true, slot)
    | some (.record attempts resetTime) =>
      if now > resetTime then (true, some (.record 1 (now + windowMs)))
      else if attempts < maxAttempts then (true, some (.record (attempts + 1) resetTime))
      else (false, slot)

/-- `clearRateLimit(key)` (security.ts:281-284). -/
def clearRateLimit (_slot : Option RLSlot) : Option RLSlot := none

/-- `n` successive `rateLimit` calls with the same arguments at the same
instant, collecting the results in order. -/
def iterRateLimit (storageOk : Bool) (maxAttempts windowMs now : Int) :
    Nat → Option RLSlot → List Bool × Option RLSlot
  | 0, slot => ([], slot)
  | n + 1, slot =>
    let r := rateLimit storageOk slot maxAttempts windowMs now
    let rest := iterRateLimit storageOk maxAttempts windowMs now n r.2
    (r.1 :: rest.1, rest.2)

/-! ## Session service (src/services/modelService.ts:284-397, authService) -/

/-- `UserSession`: `{ isAuthenticated, sessionToken, expiresAt, mode }`.
`expiresAt` (an ISO string in the source) is modelled as its epoch-ms
value, the form in which the code compares it. -/
structure UserSession where
  isAuthenticated : Bool
  sessionToken : String
  expiresAt : Int
  mode : String

/-- Contents of the `posm-catalogue-session` storage slot; `corrupt` models
stored text that `JSON.parse` rejects. -/
inductive SessionSlot where
  | record (s : UserSession)
  | corrupt

/-- `logout()`: `localStorage.removeItem(SESSION_KEY)`. -/
def logout (_slot : Option SessionSlot) : Option SessionSlot := none

/-- `getSession()` (authService): returns the updated storage slot and the
result.  A missing slot or a parse failure yields `none` (the catch returns
`null` without deleting); an expired record is deleted (`logout()`), and an
unexpired record is returned as-is — note the source checks only expiry
here, not `isAuthenticated`. -/
def getSession (slot : Option SessionSlot) (now : Int) :
    Option SessionSlot × Option UserSession :=
  match slot with
  | none => (none, none)
  | some .corrupt => (some .corrupt, none)
  | some (.record s) =>
    if now > s.expiresAt then (logout slot, none)
    else (slot, some s)

/-- `isAuthenticated()` (authService):
`session !== null && session.isAuthenticated`. -/
def isAuthenticated (slot : Option SessionSlot) (now : Int) : Bool :=
  match (getSession slot now).2 with
  | none => false
  | some s => s.isAuthenticated

def SESSION_DURATION : Int := 24 * 60 * 60 * 1000

def MAX_LOGIN_ATTEMPTS : Int := 5

def RATE_LIMIT_WINDOW : Int := 15 * 60 * 1000

def DEMO_PASSWORD : String := "admin123"

/-- The auth-related storage: the `rate_limit_login` slot and the
`posm-catalogue-session` slot. -/
structure AuthState where
  rl : Option RLSlot
  session : Option SessionSlot

/-- `login(password)` (authService).  `tok` is the value produced by the
random `generateSessionToken()`, passed as an oracle.  The `Except` layer
carries the thrown "too many attempts" error. -/
def login (storageOk : Bool) (password : String) (st : AuthState) (now : Int)
    (tok : String) : Except String Bool × AuthState :=
  let r := rateLimit storageOk st.rl MAX_LOGIN_ATTEMPTS RATE_LIMIT_WINDOW now
  if !r.1 then
    (.error "Too many login attempts. Please try again in 15 minutes.", ⟨r.2, st.session⟩)
  else if password = DEMO_PASSWORD then
    (.ok true, ⟨clearRateLimit r.2,
      some (.record ⟨true, tok, now + SESSION_DURATION, "admin"⟩)⟩)
  else
    (.ok false, ⟨r.2, st.session⟩)

/-! ## Draft store (src/services/modelService.ts:398-499, draftService)

Draft payloads travel through `JSON.stringify`/`JSON.parse`, so a stored
string is modelled by what `JSON.parse` makes of it: `jsonOf v` for text
that parses to the JSON value `v` (stringify-then-parse is the identity on
such values), `plain s` for text that `JSON.parse` rejects — e.g. the bare
ISO timestamp written to the companion key. -/

/-- One `localStorage` string, classified by its JSON parse. -/
inductive StoredString where
  | jsonOf (v : JValue)
  | plain (s : String)

/-- The draft data key `posm-draft-{modelId}`. -/
def draftDataKey (modelId : String) : String := "posm-draft-" ++ modelId

/-- The companion timestamp key `posm-draft-{modelId}-timestamp`. -/
def draftTsKey (modelId : String) : String := draftDataKey modelId ++ "-timestamp"

/-- `saveDraft(modelId, draftData)`: writes the serialized draft and then
the ISO timestamp `nowIso` to the companion key. -/
def saveDraft (st : Store StoredString) (modelId : String) (draftData : JValue)
    (nowIso : String) : Store StoredString :=
  setItem (setItem st (draftDataKey modelId) (.jsonOf draftData))
    (draftTsKey modelId) (.plain nowIso)

/-- `loadDraft(modelId)`: `JSON.parse` of the stored data; a parse failure
is caught and yields `null`. -/
def loadDraft (st : Store StoredString) (modelId : String) : Option JValue :=
  match lookupKey st (draftDataKey modelId) with
  | none => none
  | some (.jsonOf v) => some v
  | some (.plain _) => none

/-- `clearDraft(modelId)`: removes the data key and the timestamp key. -/
def clearDraft (st : Store StoredString) (modelId : String) : Store StoredString :=
  eraseKey (eraseKey st (draftDataKey modelId)) (draftTsKey modelId)

/-- `hasDraft(modelId)`: `localStorage.getItem(key) !== null`. -/
def hasDraft (st : Store StoredString) (modelId : String) : Bool :=
  (lookupKey st (draftDataKey modelId)).isSome

/-- `key.startsWith(p)`, on the character lists of the strings. -/
def strHasPre (p s : String) : Bool := p.data.isPrefixOf s.data

/-- `key.endsWith(q)`, on the character lists of the strings. -/
def strHasSuf (q s : String) : Bool := q.data.isSuffixOf s.data

/-- `key.substring(p.length)`, on the character lists of the strings. -/
def stripPre (p s : String) : String := ⟨s.data.drop p.data.length⟩

/-- `getAllDraftIds()` (modelService.ts:468-481): scan every stored key,
keep those with the draft prefix that do not end in `-timestamp`, and strip
the prefix. -/
def getAllDraftIds (st : Store StoredString) : List String :=
  (st.filter (fun kv =>
      strHasPre "posm-draft-" kv.1 && !(strHasSuf "-timestamp" kv.1))).map
    (fun kv => stripPre "posm-draft-" kv.1)

/-- A candidate model that is fully well-formed except that its single
marker lacks a `position` field. -/
def markerNoPosition : JValue :=
  .obj [("id", .str "a"), ("name", .str "n"),
        ("image", .obj [("url", .str "u"), ("width", .num 1), ("height", .num 1)]),
        ("posmMarkers", .arr [.obj []])]

/-- C1: For every input candidate, `validateModel` accumulates all structural
violations and never lets an exception escape; in particular a marker whose
`position` is missing still yields a returned error list.  REFUTED BY THE
CODE: on a marker with no `position`, the guard at line 190 pushes the
"Invalid position coordinates" error, but line 193 then dereferences
`marker.position.x` unconditionally, so a `TypeError` escapes `validateModel`
and no error list is returned. -/
theorem validateModel_throws_on_marker_missing_position :
    validateModel markerNoPosition =
      .error "TypeError: Cannot read properties of undefined" := rfl

/-! ## Store lemmas -/

theorem lookupKey_setItem_self {V : Type} (st : Store V) (k : String) (v : V) :
    lookupKey (setItem st k v) k = some v := by
  simp [lookupKey, setItem]

theorem lookupKey_eraseKey_ne {V : Type} (st : Store V) (k k2 : String) (h : k2 ≠ k) :
    lookupKey (eraseKey st k) k2 = lookupKey st k2 := by
  induction st with
  | nil => rfl
  | cons kv tl ih =>
    by_cases hk : kv.1 = k
    · have hk2 : ¬kv.1 = k2 := by rw [hk]; exact fun e => h e.symm
      simp only [eraseKey, lookupKey, if_pos hk, if_neg hk2]
    · by_cases h2 : kv.1 = k2
      · simp only [eraseKey, lookupKey, if_neg hk, if_pos h2]
      · simp only [eraseKey, lookupKey, if_neg hk, if_neg h2, ih]

theorem lookupKey_setItem_ne {V : Type} (st : Store V) (k k2 : String) (v : V) (h : k2 ≠ k) :
    lookupKey (setItem st k v) k2 = lookupKey st k2 := by
  have hne : ¬k = k2 := fun e => h e.symm
  simp only [setItem, lookupKey, if_neg hne, lookupKey_eraseKey_ne st k k2 h]

theorem lookupKey_eq_none_of_not_mem {V : Type} (st : Store V) (k : String)
    (h : k ∉ st.map Prod.fst) : lookupKey st k = none := by
  induction st with
  | nil => rfl
  | cons kv tl ih =>
    rw [List.map_cons] at h
    simp only [List.mem_cons, not_or] at h
    have h1 : ¬kv.1 = k := fun e => h.1 e.symm
    simp only [lookupKey, if_neg h1]
    exact ih h.2

theorem lookupKey_eraseKey_self {V : Type} (st : Store V) (k : String)
    (h : UniqueKeys st) : lookupKey (eraseKey st k) k = none := by
  induction st with
  | nil => rfl
  | cons kv tl ih =>
    unfold UniqueKeys at h
    rw [List.map_cons, List.nodup_cons] at h
    by_cases hk : kv.1 = k
    · simp only [eraseKey, if_pos hk]
      exact lookupKey_eq_none_of_not_mem tl k (by rw [← hk]; exact h.1)
    · simp only [eraseKey, lookupKey, if_neg hk]
      exact ih h.2

theorem length_eraseKey {V : Type} (st : Store V) (k : String) (e : V)
    (h : lookupKey st k = some e) : (eraseKey st k).length + 1 = st.length := by
  induction st with
  | nil => simp [lookupKey] at h
  | cons kv tl ih =>
    by_cases hk : kv.1 = k
    · simp only [eraseKey, if_pos hk, List.length_cons]
    · simp only [lookupKey, if_neg hk] at h
      simp only [eraseKey, if_neg hk, List.length_cons, ih h]

theorem lookupKey_isSome_of_mem {V : Type} (st : Store V) (kv : String × V)
    (h : kv ∈ st) : (lookupKey st kv.1).isSome = true := by
  induction st with
  | nil => simp at h
  | cons a tl ih =>
    rcases List.mem_cons.mp h with he | hm
    · subst he; simp [lookupKey]
    · by_cases hk : a.1 = kv.1
      · simp [lookupKey, hk]
      · simp only [lookupKey, if_neg hk]
        exact ih hm

/-! ## Cache claims -/

/-- C5 counterexample: the claim reads "an entry with ttl set is expired iff
now - timestamp > ttl".  For an entry stored with `ttl = 0` at time 0 and
read at time 10, `now - timestamp = 10 > 0 = ttl`, so the claim says the
entry is expired and `get` returns absent; the code treats `ttl === 0` as
falsy and returns the value. -/
theorem cacheGet_ttl_zero_entry_not_expired :
    (CacheService.get (CacheService.set ([] : Store (CacheEntry Nat)) "k" 7 (some 0) 0)
        "k" 10).2 = some 7
    ∧ ((10 : Int) - 0 > 0) := ⟨rfl, by decide⟩

/-- C5 (amended): `get` returns the stored value when the entry is present
and not expired, where an entry is expired iff its ttl is set to a
*nonzero* value `t` with `now - timestamp > t` (strictly); an entry with no
ttl — or with `ttl = 0` — never expires.  When present but expired, `get`
deletes the entry and returns absent.  (`get` is a total function of the
store: absence is the only miss signal.) -/
theorem cacheGet_spec {V : Type} (cache : Store (CacheEntry V)) (k : String) (now : Int) :
    (lookupKey cache k = none → CacheService.get cache k now = (cache, none))
    ∧ (∀ e, lookupKey cache k = some e → CacheService.expiredAt e now = false →
        CacheService.get cache k now = (cache, some e.data))
    ∧ (∀ e, lookupKey cache k = some e → CacheService.expiredAt e now = true →
        CacheService.get cache k now = (eraseKey cache k, none))
    ∧ (∀ e : CacheEntry V, CacheService.expiredAt e now = true ↔
        ∃ t, e.ttl = some t ∧ t ≠ 0 ∧ now - e.timestamp > t) := by
  refine ⟨?_, ?_, ?_, ?_⟩
  · intro h; simp [CacheService.get, h]
  · intro e h he; simp [CacheService.get, h, he]
  · intro e h he; simp [CacheService.get, CacheService.remove, h, he]
  · intro e
    cases ht : e.ttl with
    | none => simp [CacheService.expiredAt, ht]
    | some t => simp [CacheService.expiredAt, ht]

theorem cacheGet_spec_witness :
    CacheService.get [("k", (⟨7, 0, some 5⟩ : CacheEntry Nat))] "k" 10 = ([], none)
    ∧ CacheService.get [("k", (⟨7, 0, some 5⟩ : CacheEntry Nat))] "k" 3
        = ([("k", ⟨7, 0, some 5⟩)], some 7) :=
  ⟨(cacheGet_spec [("k", (⟨7, 0, some 5⟩ : CacheEntry Nat))] "k" 10).2.2.1
      ⟨7, 0, some 5⟩ rfl (by decide),
   (cacheGet_spec [("k", (⟨7, 0, some 5⟩ : CacheEntry Nat))] "k" 3).2.1
      ⟨7, 0, some 5⟩ rfl (by decide)⟩

/-- C6: `size()` counts every entry currently held, so the number of live
(unexpired) entries is bounded by it; and a `get` on an expired key evicts
that entry, so the subsequent `size()` is smaller by one. -/
theorem cacheSize_upper_bound_and_eviction {V : Type} (cache : Store (CacheEntry V))
    (k : String) (now : Int) :
    CacheService.liveCount cache now ≤ CacheService.size cache
    ∧ (∀ e, lookupKey cache k = some e → CacheService.expiredAt e now = true →
        CacheService.size (CacheService.get cache k now).1 + 1 = CacheService.size cache
        ∧ (CacheService.get cache k now).2 = none) := by
  constructor
  · exact List.length_filter_le _ cache
  · intro e h he
    simp only [CacheService.get, h, he, if_pos, CacheService.size]
    exact ⟨length_eraseKey cache k e h, trivial⟩

theorem cacheSize_upper_bound_and_eviction_witness :
    CacheService.liveCount [("k", (⟨7, 0, some 5⟩ : CacheEntry Nat))] 10
        ≤ CacheService.size [("k", (⟨7, 0, some 5⟩ : CacheEntry Nat))]
    ∧ CacheService.size (CacheService.get [("k", (⟨7, 0, some 5⟩ : CacheEntry Nat))] "k" 10).1 + 1
        = CacheService.size [("k", (⟨7, 0, some 5⟩ : CacheEntry Nat))] :=
  ⟨(cacheSize_upper_bound_and_eviction [("k", (⟨7, 0, some 5⟩ : CacheEntry Nat))] "k" 10).1,
   ((cacheSize_upper_bound_and_eviction [("k", (⟨7, 0, some 5⟩ : CacheEntry Nat))] "k" 10).2
      ⟨7, 0, some 5⟩ rfl (by decide)).1⟩

/-- C10: an entry stored with `ttl = 0` never expires: `get` at any later
time returns the value and leaves the store untouched, exactly as for an
entry stored with no ttl. -/
theorem cacheSet_ttl_zero_never_expires {V : Type} (cache : Store (CacheEntry V))
    (k : String) (v : V) (ts now : Int) :
    CacheService.get (CacheService.set cache k v (some 0) ts) k now
      = (CacheService.set cache k v (some 0) ts, some v)
    ∧ (CacheService.get (CacheService.set cache k v (some 0) ts) k now).2
      = (CacheService.get (CacheService.set cache k v none ts) k now).2 := by
  constructor
  · simp [CacheService.get, CacheService.set, lookupKey_setItem_self, CacheService.expiredAt]
  · simp [CacheService.get, CacheService.set, lookupKey_setItem_self, CacheService.expiredAt]

/-! ## Rate limiter claims -/

/-- C3: with `max = 5` and no stored counter, exactly 5 calls within one
window are allowed and the 6th is denied (leaving `attempts = 5`); once the
window's `resetTime` has elapsed, the next call is allowed again and records
`attempts = 1` with a fresh `resetTime`. -/
theorem rateLimit_fixed_window_boundary (now now2 w : Int) (hw : 0 ≤ w)
    (h2 : now + w < now2) :
    iterRateLimit true 5 w now 6 none
      = ([true, true, true, true, true, false], some (.record 5 (now + w)))
    ∧ rateLimit true (some (.record 5 (now + w))) 5 w now2
      = (true, some (.record 1 (now2 + w))) := by
  have hnot : ¬(now > now + w) := by omega
  exact ⟨by simp [iterRateLimit, rateLimit, hnot], by simp [rateLimit, h2]⟩

theorem rateLimit_fixed_window_boundary_witness :
    iterRateLimit true 5 10 0 6 none
      = ([true, true, true, true, true, false], some (.record 5 10))
    ∧ rateLimit true (some (.record 5 10)) 5 10 11 = (true, some (.record 1 21)) :=
  rateLimit_fixed_window_boundary 0 11 10 (by decide) (by decide)

/-- C9: the limiter fails open.  If storage is unavailable (every
`getItem`/`setItem` throws) or the stored counter text does not parse, the
try/catch makes `rateLimit` return `true` and leave storage untouched, so
any number of successive guarded attempts are all permitted. -/
theorem rateLimit_fails_open (storageOk : Bool) (slot : Option RLSlot)
    (maxA w now : Int) (n : Nat)
    (h : storageOk = false ∨ slot = some .corrupt) :
    rateLimit storageOk slot maxA w now = (true, slot)
    ∧ (iterRateLimit storageOk maxA w now n slot).1 = List.replicate n true := by
  have hbase : rateLimit storageOk slot maxA w now = (true, slot) := by
    rcases h with h | h
    · subst h; rfl
    · subst h; cases storageOk <;> rfl
  refine ⟨hbase, ?_⟩
  induction n with
  | zero => rfl
  | succ n ih =>
    simp only [iterRateLimit, hbase, List.replicate_succ]
    exact congrArg (List.cons true) ih

theorem rateLimit_fails_open_witness :
    rateLimit false none 5 10 0 = (true, none)
    ∧ (iterRateLimit false 5 10 0 3 none).1 = List.replicate 3 true :=
  rateLimit_fails_open false none 5 10 0 3 (Or.inl rfl)

/-- A denied `rateLimit` call does not write: the stored slot is returned
unchanged.  (The denial branch of the source returns before any
`setItem`.) -/
theorem rateLimit_denied_no_write (storageOk : Bool) (slot : Option RLSlot)
    (ma w now : Int) (h : (rateLimit storageOk slot ma w now).1 = false) :
    (rateLimit storageOk slot ma w now).2 = slot := by
  cases storageOk with
  | false => simp [rateLimit] at h
  | true =>
    match slot with
    | none => simp [rateLimit] at h
    | some .corrupt => simp [rateLimit] at h
    | some (.record a rt) =>
      by_cases h1 : now > rt
      · simp [rateLimit, h1] at h
      · by_cases hlt : a < ma
        · simp [rateLimit, h1, hlt] at h
        · simp [rateLimit, h1, hlt]

/-! ## Session claims -/

/-- C2 counterexample: the claim says `getSession` returns the record iff
`isAuthenticated === true` and `now <= expiresAt`, and behaves as
logged-out otherwise.  A stored record with `isAuthenticated = false` and
an unexpired `expiresAt` is nevertheless returned by the code, which checks
only expiry. -/
theorem getSession_returns_unauthenticated_record :
    (getSession (some (.record ⟨false, "tok", 1000, "admin"⟩)) 0).2
      = some ⟨false, "tok", 1000, "admin"⟩
    ∧ (⟨false, "tok", 1000, "admin"⟩ : UserSession).isAuthenticated = false :=
  ⟨rfl, rfl⟩

/-- C2 (amended): `getSession` returns the stored record iff it parses and
`now <= expiresAt` — it does not test `isAuthenticated` (that test lives in
`isAuthenticated()`, which requires both conditions).  On detecting expiry
it deletes the record and returns absent, so an immediately repeated call
also returns absent (self-healing, idempotent read). -/
theorem getSession_expiry_characterization (slot : Option SessionSlot) (now : Int) :
    (∀ s, (getSession slot now).2 = some s ↔ slot = some (.record s) ∧ now ≤ s.expiresAt)
    ∧ (∀ s, slot = some (.record s) → now > s.expiresAt →
        getSession slot now = (none, none)
        ∧ getSession (getSession slot now).1 now = (none, none))
    ∧ (isAuthenticated slot now = true ↔
        ∃ s, slot = some (.record s) ∧ now ≤ s.expiresAt ∧ s.isAuthenticated = true) := by
  refine ⟨?_, ?_, ?_⟩
  · intro s
    match slot with
    | none => simp [getSession]
    | some .corrupt => simp [getSession]
    | some (.record s2) =>
      by_cases hexp : now > s2.expiresAt
      · simp only [getSession, if_pos hexp, logout]
        constructor
        · intro h; exact absurd h (by simp)
        · rintro ⟨heq, hle⟩
          cases heq
          omega
      · simp only [getSession, if_neg hexp]
        constructor
        · intro h
          cases h
          exact ⟨rfl, by omega⟩
        · rintro ⟨heq, hle⟩
          cases heq
          rfl
  · intro s hs hexp
    subst hs
    simp [getSession, if_pos hexp, logout]
  · match slot with
    | none => simp [isAuthenticated, getSession]
    | some .corrupt => simp [isAuthenticated, getSession]
    | some (.record s2) =>
      by_cases hexp : now > s2.expiresAt
      · simp only [isAuthenticated, getSession, if_pos hexp, logout]
        constructor
        · intro h; exact absurd h (by simp)
        · rintro ⟨s, heq, hle, _⟩
          cases heq
          omega
      · simp only [isAuthenticated, getSession, if_neg hexp]
        constructor
        · intro h
          exact ⟨s2, rfl, by omega, h⟩
        · rintro ⟨s, heq, hle, ha⟩
          cases heq
          exact ha

theorem getSession_expiry_characterization_witness :
    getSession (some (.record ⟨true, "t", 10, "admin"⟩)) 20 = (none, none)
    ∧ isAuthenticated (some (.record ⟨true, "t", 10, "admin"⟩)) 5 = true :=
  ⟨((getSession_expiry_characterization (some (.record ⟨true, "t", 10, "admin"⟩)) 20).2.1
      ⟨true, "t", 10, "admin"⟩ rfl (by decide)).1,
   (getSession_expiry_characterization (some (.record ⟨true, "t", 10, "admin"⟩)) 5).2.2.mpr
      ⟨⟨true, "t", 10, "admin"⟩, rfl, by decide, rfl⟩⟩

/-- C4: when the rate limit is exhausted, `login` throws the distinct "too
many attempts" error before the password is compared (the outcome is
identical for every password, and the stored state is untouched); on a
correct password within the limit it clears the rate-limit counter,
persists a session with `isAuthenticated = true` expiring exactly 24 hours
from now, and returns true; on an incorrect password it returns false and
keeps the rate-limit counter produced by this attempt. -/
theorem login_spec (storageOk : Bool) (pw : String) (st : AuthState) (now : Int)
    (tok : String) :
    ((rateLimit storageOk st.rl MAX_LOGIN_ATTEMPTS RATE_LIMIT_WINDOW now).1 = false →
      (∀ pw2, login storageOk pw st now tok = login storageOk pw2 st now tok)
      ∧ (login storageOk pw st now tok).1
          = .error "Too many login attempts. Please try again in 15 minutes."
      ∧ (login storageOk pw st now tok).2 = st)
    ∧ ((rateLimit storageOk st.rl MAX_LOGIN_ATTEMPTS RATE_LIMIT_WINDOW now).1 = true →
        pw = DEMO_PASSWORD →
        login storageOk pw st now tok
          = (.ok true, ⟨none, some (.record ⟨true, tok, now + SESSION_DURATION, "admin"⟩)⟩))
    ∧ ((rateLimit storageOk st.rl MAX_LOGIN_ATTEMPTS RATE_LIMIT_WINDOW now).1 = true →
        pw ≠ DEMO_PASSWORD →
        login storageOk pw st now tok
          = (.ok false,
             ⟨(rateLimit storageOk st.rl MAX_LOGIN_ATTEMPTS RATE_LIMIT_WINDOW now).2,
              st.session⟩)) := by
  refine ⟨?_, ?_, ?_⟩
  · intro h
    have hw : (rateLimit storageOk st.rl MAX_LOGIN_ATTEMPTS RATE_LIMIT_WINDOW now).2 = st.rl :=
      rateLimit_denied_no_write storageOk st.rl MAX_LOGIN_ATTEMPTS RATE_LIMIT_WINDOW now h
    refine ⟨fun pw2 => ?_, ?_, ?_⟩
    · simp [login, h]
    · simp [login, h]
    · simp [login, h, hw]
  · intro h hpw
    simp [login, h, hpw, clearRateLimit]
  · intro h hpw
    simp [login, h, hpw]

theorem login_spec_witness :
    login true "admin123" ⟨none, none⟩ 0 "tok"
      = (.ok true, ⟨none, some (.record ⟨true, "tok", 0 + SESSION_DURATION, "admin"⟩)⟩)
    ∧ (login true "wrong" ⟨some (.record 5 100), none⟩ 0 "tok").1
      = .error "Too many login attempts. Please try again in 15 minutes."
    ∧ login true "wrong" ⟨none, none⟩ 0 "tok"
      = (.ok false, ⟨some (.record 1 (0 + RATE_LIMIT_WINDOW)), none⟩) :=
  ⟨(login_spec true "admin123" ⟨none, none⟩ 0 "tok").2.1 rfl rfl,
   ((login_spec true "wrong" ⟨some (.record 5 100), none⟩ 0 "tok").1 rfl).2.1,
   (login_spec true "wrong" ⟨none, none⟩ 0 "tok").2.2 rfl (by decide)⟩

/-! ## String lemmas for the draft keys -/

theorem strExt (a b : String) (h : a.data = b.data) : a = b := by
  cases a; cases b; exact congrArg String.mk h

theorem draftDataKey_ne_tsKey (m : String) : draftDataKey m ≠ draftTsKey m := by
  intro h
  have hd : (draftDataKey m).data = (draftDataKey m ++ "-timestamp").data :=
    congrArg String.data h
  rw [String.data_append] at hd
  have hlen := congrArg List.length hd
  rw [List.length_append] at hlen
  have hpos : 0 < "-timestamp".data.length := by decide
  omega

theorem strHasPre_append (p m : String) : strHasPre p (p ++ m) = true := by
  unfold strHasPre
  rw [String.data_append, List.isPrefixOf_iff_prefix]
  exact List.prefix_append _ _

theorem strHasSuf_append (p q : String) : strHasSuf q (p ++ q) = true := by
  unfold strHasSuf
  rw [String.data_append, List.isSuffixOf_iff_suffix]
  exact List.suffix_append _ _

theorem stripPre_append (p m : String) : stripPre p (p ++ m) = m := by
  unfold stripPre
  rw [String.data_append, List.drop_left]

theorem eq_append_of_strHasPre (p s : String) (h : strHasPre p s = true) :
    s = p ++ stripPre p s := by
  unfold strHasPre at h
  rw [List.isPrefixOf_iff_prefix] at h
  rcases h with ⟨t, ht⟩
  apply strExt
  rw [String.data_append]
  show s.data = p.data ++ (s.data.drop p.data.length)
  rw [← ht, List.drop_left]

/-- Membership in the enumeration: `m` is listed exactly when some stored
entry has key `posm-draft-` ++ `m` and that key does not end in
`-timestamp`. -/
theorem mem_getAllDraftIds_iff (st : Store StoredString) (m : String) :
    m ∈ getAllDraftIds st ↔
      (∃ v, (draftDataKey m, v) ∈ st)
      ∧ strHasSuf "-timestamp" (draftDataKey m) = false := by
  unfold getAllDraftIds
  rw [List.mem_map]
  constructor
  · rintro ⟨kv, hkv, hstrip⟩
    rw [List.mem_filter] at hkv
    rcases hkv with ⟨hmem, hpred⟩
    rw [Bool.and_eq_true] at hpred
    rcases hpred with ⟨hpre, hsuf⟩
    have hkey : kv.1 = draftDataKey m := by
      have h1 := eq_append_of_strHasPre _ _ hpre
      rw [hstrip] at h1
      exact h1
    refine ⟨⟨kv.2, ?_⟩, ?_⟩
    · rw [← hkey]
      exact hmem
    · rw [← hkey]
      simpa using hsuf
  · rintro ⟨⟨v, hmem⟩, hsuf⟩
    refine ⟨(draftDataKey m, v), ?_, stripPre_append _ _⟩
    rw [List.mem_filter]
    refine ⟨hmem, ?_⟩
    rw [Bool.and_eq_true]
    exact ⟨strHasPre_append _ _, by simp [hsuf]⟩

/-! ## Draft claims -/

/-- C7: a saved draft loads back deep-equal (localStorage stores the JSON
serialization, and stringify-then-parse is the identity on JSON values);
after `clearDraft` the load is absent; and corrupt/unparsable stored data
loads as absent rather than throwing. -/
theorem draft_round_trip (st : Store StoredString) (m : String) (d : JValue)
    (iso : String) (hu : UniqueKeys st) :
    loadDraft (saveDraft st m d iso) m = some d
    ∧ loadDraft (clearDraft st m) m = none
    ∧ (∀ s, lookupKey st (draftDataKey m) = some (.plain s) → loadDraft st m = none) := by
  have hne : draftDataKey m ≠ draftTsKey m := draftDataKey_ne_tsKey m
  refine ⟨?_, ?_, ?_⟩
  · unfold loadDraft saveDraft
    rw [lookupKey_setItem_ne _ _ _ _ hne, lookupKey_setItem_self]
  · unfold loadDraft clearDraft
    rw [lookupKey_eraseKey_ne _ _ _ hne, lookupKey_eraseKey_self st _ hu]
  · intro s h
    unfold loadDraft
    rw [h]

theorem draft_round_trip_witness :
    loadDraft (saveDraft [("other", .plain "x")] "m1" (.num 5) "iso") "m1" = some (.num 5)
    ∧ loadDraft (clearDraft [("other", .plain "x")] "m1") "m1" = none
    ∧ loadDraft [(draftDataKey "m1", .plain "junk")] "m1" = none :=
  ⟨(draft_round_trip [("other", .plain "x")] "m1" (.num 5) "iso" (by simp [UniqueKeys])).1,
   (draft_round_trip [("other", .plain "x")] "m1" (.num 5) "iso" (by simp [UniqueKeys])).2.1,
   (draft_round_trip [(draftDataKey "m1", .plain "junk")] "m1" (.num 5) "iso"
      (by simp [UniqueKeys])).2.2 "junk" (by simp [lookupKey])⟩

/-- C8 counterexample: the claim says the data keys of all drafted models,
whatever their id, are enumerated.  For the model id "x-timestamp" the data
key is `posm-draft-x-timestamp`, which itself ends in `-timestamp`, so the
scan excludes it: the draft exists (`hasDraft` is true) but
`getAllDraftIds` returns the empty list. -/
theorem getAllDraftIds_misses_timestamp_suffixed_id :
    hasDraft (saveDraft [] "x-timestamp" (.str "d") "2025-01-01T00:00:00Z") "x-timestamp"
      = true
    ∧ getAllDraftIds (saveDraft [] "x-timestamp" (.str "d") "2025-01-01T00:00:00Z") = [] :=
  ⟨rfl, rfl⟩

/-- C8 (amended): after `saveDraft m d`, the enumeration contains `m` iff
the data key `posm-draft-` ++ `m` does not end in `-timestamp` (model ids
ending in `-timestamp` — or equal to `timestamp` — collide with the
companion-key pattern and are wrongly excluded); and every id the
enumeration returns has a stored draft data key. -/
theorem getAllDraftIds_spec (st : Store StoredString) (m : String) (d : JValue)
    (iso : String) :
    (m ∈ getAllDraftIds (saveDraft st m d iso) ↔
       strHasSuf "-timestamp" (draftDataKey m) = false)
    ∧ (∀ i, i ∈ getAllDraftIds st → (lookupKey st (draftDataKey i)).isSome = true) := by
  constructor
  · rw [mem_getAllDraftIds_iff]
    constructor
    · rintro ⟨_, hsuf⟩
      exact hsuf
    · intro hsuf
      refine ⟨⟨.jsonOf d, ?_⟩, hsuf⟩
      have hne : ¬draftDataKey m = draftTsKey m := draftDataKey_ne_tsKey m
      unfold saveDraft setItem
      apply List.mem_cons_of_mem
      simp only [eraseKey, if_neg hne]
      exact List.mem_cons_self _ _
  · intro i hi
    rcases (mem_getAllDraftIds_iff st i).mp hi with ⟨⟨v, hmem⟩, _⟩
    exact lookupKey_isSome_of_mem st (draftDataKey i, v) hmem

theorem getAllDraftIds_spec_witness :
    "m1" ∈ getAllDraftIds (saveDraft [] "m1" (.num 1) "t")
    ∧ (lookupKey (saveDraft [] "m1" (.num 1) "t") (draftDataKey "m1")).isSome = true :=
  ⟨(getAllDraftIds_spec [] "m1" (.num 1) "t").1.mpr (by decide),
   (getAllDraftIds_spec (saveDraft [] "m1" (.num 1) "t") "m1" (.num 1) "t").2 "m1"
     ((getAllDraftIds_spec [] "m1" (.num 1) "t").1.mpr (by decide))⟩

end Posm
